import Mathlib

/-!
Shallow embedding of the ormrstake V3 on-chain validators
(`pool_validator_v3.py`, `staking_shared_v3.py`, `pool_nft_policy_v3.py`).

Byte strings are lists of naturals; the ledger's multi-asset values are
association lists (policy id to token-name/quantity maps), matching the
Python dict interface used by the OpShin sources.  Python's arbitrary
precision integers are `Int`, and Python's floor division `//` is
`Int.fdiv`.  A validator evaluation either accepts (all `assert`s pass)
or rejects (some `assert` fails, a cast fails, or an index errors); each
validator is embedded as a `Bool`-valued function where `true` means the
transaction is accepted and any failure path yields `false`.
-/

namespace OrmrStake

abbrev ByteStr := List Nat

/-- Payment credential of an address: key hash or script hash. -/
inductive Credential where
  | pubKey (h : ByteStr)
  | script (h : ByteStr)
deriving DecidableEq, Repr

/-- Ledger address: payment credential plus optional staking credential. -/
structure Address where
  payment_credential : Credential
  staking_credential : Option Credential
deriving DecidableEq, Repr

abbrev TokenMap := List (ByteStr × Int)

abbrev Value := List (ByteStr × TokenMap)

/-- Pool configuration datum, 16 fields, as in `v3_datum_types.py` /
`pool_validator_v3.py` / `staking_shared_v3.py` (identical definitions). -/
structure PoolDatum where
  pool_nft_policy : ByteStr
  pool_nft_name : ByteStr
  stake_token_policy : ByteStr
  stake_token_name : ByteStr
  reward_token_policy : ByteStr
  reward_token_name : ByteStr
  yield_rate : Int
  min_stake : Int
  owner : ByteStr
  total_staked : Int
  staking_validator_hash : ByteStr
  position_nft_policy_hash : ByteStr
  platform_fee_pkh : ByteStr
  deposit_fee_bps : Int
  burn_address_hash : ByteStr
  paused : Int
deriving DecidableEq, Repr

/-- User staking position datum, as in `staking_shared_v3.py`. -/
structure UserPositionDatum where
  pool_nft_policy : ByteStr
  pool_nft_name : ByteStr
  user_pkh : ByteStr
  position_nft_name : ByteStr
  stake_amount : Int
  staked_at : Int
  last_claim : Int
  total_claimed : Int
deriving DecidableEq, Repr

/-- Platform authority datum, as in `pool_nft_policy_v3.py`. -/
structure PlatformAuthorityDatum where
  pool_creator_pkh : ByteStr
  platform_admin_pkh : ByteStr
  platform_nft_policy : ByteStr
  platform_nft_name : ByteStr
deriving DecidableEq, Repr

/-- The datum payloads that occur in this protocol.  An OpShin cast of a
datum to the wrong dataclass shape fails at evaluation time, which maps
to rejection in the embedding. -/
inductive DatumV where
  | pool (d : PoolDatum)
  | user (d : UserPositionDatum)
  | auth (d : PlatformAuthorityDatum)
deriving DecidableEq, Repr

inductive OutputDatum where
  | noDatum
  | datumHash (h : ByteStr)
  | someDatum (d : DatumV)
deriving DecidableEq, Repr

structure TxOut where
  address : Address
  value : Value
  datum : OutputDatum
deriving DecidableEq, Repr

structure TxOutRef where
  id : ByteStr
  idx : Int
deriving DecidableEq, Repr

structure TxIn where
  out_ref : TxOutRef
  resolved : TxOut
deriving DecidableEq, Repr

inductive ExtTime where
  | negInf
  | finite (t : Int)
  | posInf
deriving DecidableEq, Repr

structure TimeBound where
  limit : ExtTime
  closed : Bool
deriving DecidableEq, Repr

structure TimeRange where
  lower_bound : TimeBound
  upper_bound : TimeBound
deriving DecidableEq, Repr

structure TxInfo where
  inputs : List TxIn
  reference_inputs : List TxIn
  outputs : List TxOut
  mint : Value
  signatories : List ByteStr
  validity_range : TimeRange

inductive ScriptPurpose where
  | spending (ref : TxOutRef)
  | minting (policy_id : ByteStr)

structure ScriptContext (R : Type) where
  transaction : TxInfo
  purpose : ScriptPurpose
  redeemer : R

/-- Python dict lookup `m[k]` / `k in m.keys()` for the association lists
that model ledger value maps. -/
def mapLookup {α : Type} (m : List (ByteStr × α)) (k : ByteStr) : Option α :=
  match m with
  | [] => none
  | (k', v) :: rest => if k' = k then some v else mapLookup rest k

/-- `has_nft` from the sources: value holds at least one unit of the token. -/
def has_nft (v : Value) (policy name : ByteStr) : Bool :=
  match mapLookup v policy with
  | some tokens =>
    match mapLookup tokens name with
    | some q => decide (1 ≤ q)
    | none => false
  | none => false

/-- `get_token_amount` from the sources: quantity of the token, 0 if absent. -/
def get_token_amount (v : Value) (policy name : ByteStr) : Int :=
  match mapLookup v policy with
  | some tokens =>
    match mapLookup tokens name with
    | some q => q
    | none => 0
  | none => 0

/-- `signed_by` from the sources. -/
def signed_by (tx : TxInfo) (pkh : ByteStr) : Bool :=
  tx.signatories.any fun s => decide (s = pkh)

/-- `nft_burned` from `pool_validator_v3.py`: the mint map carries exactly
quantity -1 of the token. -/
def nft_burned (tx : TxInfo) (policy name : ByteStr) : Bool :=
  match mapLookup tx.mint policy with
  | some tokens =>
    match mapLookup tokens name with
    | some q => decide (q = -1)
    | none => false
  | none => false

/-- `staking_validator_spent` from `pool_validator_v3.py`: some spent
input sits at a script address with the given hash. -/
def staking_validator_spent (tx : TxInfo) (h : ByteStr) : Bool :=
  tx.inputs.any fun i =>
    match i.resolved.address.payment_credential with
    | .script ch => decide (ch = h)
    | _ => false

def find_own_input_go (inputs : List TxIn) (ref : TxOutRef) : Option TxOut :=
  match inputs with
  | [] => none
  | i :: rest => if i.out_ref = ref then some i.resolved else find_own_input_go rest ref

/-- `find_own_input` from the sources; `none` models the trailing
`assert False`. -/
def find_own_input (tx : TxInfo) (ref : TxOutRef) : Option TxOut :=
  find_own_input_go tx.inputs ref

def find_continuing_output_go (outputs : List TxOut) (addr : Address)
    (policy name : ByteStr) : Option TxOut :=
  match outputs with
  | [] => none
  | o :: rest =>
    if o.address = addr ∧ has_nft o.value policy name = true then some o
    else find_continuing_output_go rest addr policy name

/-- `find_continuing_output` from the sources: first output at the given
address carrying the identity NFT (both policy and name checked). -/
def find_continuing_output (tx : TxInfo) (addr : Address)
    (policy name : ByteStr) : Option TxOut :=
  find_continuing_output_go tx.outputs addr policy name

/-- The all-empty `PoolDatum` the config-search helpers return when no
pool NFT is found (its `yield_rate = 0` marks it as "not found"). -/
def dummy_pool : PoolDatum :=
  { pool_nft_policy := [], pool_nft_name := []
    stake_token_policy := [], stake_token_name := []
    reward_token_policy := [], reward_token_name := []
    yield_rate := 0, min_stake := 0, owner := [], total_staked := 0
    staking_validator_hash := [], position_nft_policy_hash := []
    platform_fee_pkh := [], deposit_fee_bps := 0, burn_address_hash := []
    paused := 0 }

/-- Scan loop of `find_pool_config_in_refs` / `find_pool_config_in_inputs`:
first input carrying the pool NFT with an inline datum wins; a carried
datum of the wrong shape is a failed cast (`none` = evaluation failure);
an NFT-carrying input without inline datum is skipped. -/
def find_pool_config_go (ins : List TxIn) (p n : ByteStr) : Option PoolDatum :=
  match ins with
  | [] => some dummy_pool
  | r :: rest =>
    if has_nft r.resolved.value p n then
      match r.resolved.datum with
      | .someDatum (.pool d) => some d
      | .someDatum _ => none
      | _ => find_pool_config_go rest p n
    else find_pool_config_go rest p n

/-- `find_pool_config_reference` from `staking_shared_v3.py`: reference
inputs first, then spent inputs, each accepted only with `yield_rate > 0`;
`none` covers both the final `assert False` and cast failures. -/
def find_pool_config_reference (tx : TxInfo) (p n : ByteStr) : Option PoolDatum :=
  match find_pool_config_go tx.reference_inputs p n with
  | none => none
  | some pr =>
    if 0 < pr.yield_rate then some pr
    else
      match find_pool_config_go tx.inputs p n with
      | none => none
      | some pi => if 0 < pi.yield_rate then some pi else none

/-- `nft_sent_to_burn` from `staking_shared_v3.py`: some output at the
pool's burn script address carries the NFT. -/
def nft_sent_to_burn (tx : TxInfo) (pool : PoolDatum) (policy name : ByteStr) : Bool :=
  tx.outputs.any fun o =>
    match o.address.payment_credential with
    | .script h => decide (h = pool.burn_address_hash) && has_nft o.value policy name
    | _ => false

/-- `verify_platform_fee_paid` (identical in both validators): a zero fee
always passes, otherwise some pubkey output to the fee recipient must
carry at least the fee in the given token. -/
def verify_platform_fee_paid (tx : TxInfo) (pool : PoolDatum) (fee_amount : Int)
    (policy name : ByteStr) : Bool :=
  if fee_amount = 0 then true
  else
    tx.outputs.any fun o =>
      match o.address.payment_credential with
      | .pubKey h =>
        decide (h = pool.platform_fee_pkh) &&
        decide (fee_amount ≤ get_token_amount o.value policy name)
      | _ => false

/-- `calculate_fee` from the sources: floor(amount * bps / 10000). -/
def calculate_fee (amount fee_bps : Int) : Int :=
  Int.fdiv (amount * fee_bps) 10000

/-- `get_current_time` from `staking_shared_v3.py`: requires finite lower
and upper validity bounds at most 600000 ms apart, and returns the upper
bound; `none` models the assertion failures. -/
def get_current_time (tx : TxInfo) : Option Int :=
  match tx.validity_range.lower_bound.limit with
  | .finite lower_time =>
    match tx.validity_range.upper_bound.limit with
    | .finite upper_time =>
      if upper_time - lower_time ≤ 600000 then some upper_time else none
    | _ => none
  | _ => none

/-- `calculate_rewards` from `staking_shared_v3.py`. -/
def calculate_rewards (stake_amount yield_rate last_claim current_time : Int) : Int :=
  if stake_amount = 0 then 0
  else
    Int.fdiv (stake_amount * yield_rate * (Int.fdiv (current_time - last_claim) 86400000))
      (365 * 10000)

/-- `output_to_staker` from `staking_shared_v3.py`. -/
def output_to_staker (tx : TxInfo) (user_pkh : ByteStr)
    (stake_token_policy stake_token_name : ByteStr) (amount : Int) : Bool :=
  tx.outputs.any fun o =>
    match o.address.payment_credential with
    | .pubKey h =>
      decide (h = user_pkh) &&
      decide (amount ≤ get_token_amount o.value stake_token_policy stake_token_name)
    | _ => false

/-! ## Staking validator (`staking_shared_v3.py`) -/

/-- Redeemer of the staking validator. -/
inductive StakingRedeemer where
  | register (initial_deposit : Int)
  | deposit (amount : Int)
  | withdraw (amount : Int)
  | claim
  | compound
  | forceRefund
deriving DecidableEq, Repr

/-- ForceRefund branch of the staking validator. -/
def forceRefundCheck (tx : TxInfo) (datum : UserPositionDatum) : Bool :=
  match find_pool_config_reference tx datum.pool_nft_policy datum.pool_nft_name with
  | none => false
  | some pool =>
    decide (pool.paused = 1) &&
    signed_by tx pool.owner &&
    nft_sent_to_burn tx pool pool.position_nft_policy_hash datum.position_nft_name &&
    output_to_staker tx datum.user_pkh pool.stake_token_policy pool.stake_token_name
      datum.stake_amount

/-- Register branch of the staking validator. -/
def registerCheck (tx : TxInfo) (datum : UserPositionDatum) (initial_deposit : Int) : Bool :=
  signed_by tx datum.user_pkh &&
  match find_pool_config_reference tx datum.pool_nft_policy datum.pool_nft_name with
  | none => false
  | some pool =>
    decide (pool.paused = 0) &&
    decide (pool.min_stake ≤ initial_deposit) &&
    decide (datum.stake_amount = initial_deposit) &&
    match get_current_time tx with
    | none => false
    | some current_time =>
      decide (datum.staked_at ≤ current_time) &&
      decide (datum.last_claim = datum.staked_at) &&
      decide (datum.total_claimed = 0) &&
      verify_platform_fee_paid tx pool (calculate_fee initial_deposit pool.deposit_fee_bps)
        pool.stake_token_policy pool.stake_token_name

/-- Deposit branch of the staking validator. -/
def depositCheck (tx : TxInfo) (own_addr : Address) (datum : UserPositionDatum)
    (amount : Int) : Bool :=
  signed_by tx datum.user_pkh &&
  decide (0 < amount) &&
  match find_pool_config_reference tx datum.pool_nft_policy datum.pool_nft_name with
  | none => false
  | some pool =>
    decide (pool.paused = 0) &&
    (let fee := calculate_fee amount pool.deposit_fee_bps
     let net_amount := amount - fee
     match find_continuing_output tx own_addr pool.position_nft_policy_hash
         datum.position_nft_name with
     | none => false
     | some cont =>
       match cont.datum with
       | .someDatum (.user new_datum) =>
         decide (new_datum.stake_amount = datum.stake_amount + net_amount) &&
         decide (new_datum.pool_nft_policy = datum.pool_nft_policy) &&
         decide (new_datum.pool_nft_name = datum.pool_nft_name) &&
         decide (new_datum.user_pkh = datum.user_pkh) &&
         decide (new_datum.position_nft_name = datum.position_nft_name) &&
         decide (new_datum.staked_at = datum.staked_at) &&
         decide (new_datum.last_claim = datum.last_claim) &&
         decide (new_datum.total_claimed = datum.total_claimed) &&
         verify_platform_fee_paid tx pool fee pool.stake_token_policy pool.stake_token_name
       | _ => false)

/-- Withdraw branch of the staking validator. -/
def withdrawCheck (tx : TxInfo) (datum : UserPositionDatum) (amount : Int) : Bool :=
  signed_by tx datum.user_pkh &&
  match find_pool_config_reference tx datum.pool_nft_policy datum.pool_nft_name with
  | none => false
  | some pool =>
    let withdraw_amount := if amount = 0 then datum.stake_amount else amount
    decide (0 < withdraw_amount) &&
    decide (withdraw_amount ≤ datum.stake_amount) &&
    nft_sent_to_burn tx pool pool.position_nft_policy_hash datum.position_nft_name

/-- Claim branch of the staking validator. -/
def claimCheck (tx : TxInfo) (own_addr : Address) (datum : UserPositionDatum) : Bool :=
  signed_by tx datum.user_pkh &&
  match find_pool_config_reference tx datum.pool_nft_policy datum.pool_nft_name with
  | none => false
  | some pool =>
    match get_current_time tx with
    | none => false
    | some current_time =>
      let pending_rewards :=
        calculate_rewards datum.stake_amount pool.yield_rate datum.last_claim current_time
      decide (0 < pending_rewards) &&
      match find_continuing_output tx own_addr pool.position_nft_policy_hash
          datum.position_nft_name with
      | none => false
      | some cont =>
        match cont.datum with
        | .someDatum (.user new_datum) =>
          decide (new_datum.last_claim = current_time) &&
          decide (new_datum.total_claimed = datum.total_claimed + pending_rewards) &&
          decide (new_datum.pool_nft_policy = datum.pool_nft_policy) &&
          decide (new_datum.pool_nft_name = datum.pool_nft_name) &&
          decide (new_datum.user_pkh = datum.user_pkh) &&
          decide (new_datum.position_nft_name = datum.position_nft_name) &&
          decide (new_datum.stake_amount = datum.stake_amount) &&
          decide (new_datum.staked_at = datum.staked_at)
        | _ => false

/-- Compound branch of the staking validator. -/
def compoundCheck (tx : TxInfo) (own_addr : Address) (datum : UserPositionDatum) : Bool :=
  signed_by tx datum.user_pkh &&
  match find_pool_config_reference tx datum.pool_nft_policy datum.pool_nft_name with
  | none => false
  | some pool =>
    match get_current_time tx with
    | none => false
    | some current_time =>
      let pending_rewards :=
        calculate_rewards datum.stake_amount pool.yield_rate datum.last_claim current_time
      decide (0 < pending_rewards) &&
      (let fee := calculate_fee pending_rewards pool.deposit_fee_bps
       let net_rewards := pending_rewards - fee
       match find_continuing_output tx own_addr pool.position_nft_policy_hash
           datum.position_nft_name with
       | none => false
       | some cont =>
         match cont.datum with
         | .someDatum (.user new_datum) =>
           decide (new_datum.stake_amount = datum.stake_amount + net_rewards) &&
           decide (new_datum.last_claim = current_time) &&
           decide (new_datum.total_claimed = datum.total_claimed + pending_rewards) &&
           decide (new_datum.pool_nft_policy = datum.pool_nft_policy) &&
           decide (new_datum.pool_nft_name = datum.pool_nft_name) &&
           decide (new_datum.user_pkh = datum.user_pkh) &&
           decide (new_datum.position_nft_name = datum.position_nft_name) &&
           decide (new_datum.staked_at = datum.staked_at) &&
           verify_platform_fee_paid tx pool fee pool.reward_token_policy pool.reward_token_name
         | _ => false)

/-- `validator` of `staking_shared_v3.py`: spending purpose, own input with
inline `UserPositionDatum`, then redeemer dispatch. -/
def stakingValidator (ctx : ScriptContext StakingRedeemer) : Bool :=
  match ctx.purpose with
  | .spending ref =>
    match find_own_input ctx.transaction ref with
    | none => false
    | some own_out =>
      match own_out.datum with
      | .someDatum (.user datum) =>
        match ctx.redeemer with
        | .forceRefund => forceRefundCheck ctx.transaction datum
        | .register d => registerCheck ctx.transaction datum d
        | .deposit a => depositCheck ctx.transaction own_out.address datum a
        | .withdraw a => withdrawCheck ctx.transaction datum a
        | .claim => claimCheck ctx.transaction own_out.address datum
        | .compound => compoundCheck ctx.transaction own_out.address datum
      | _ => false
  | _ => false

/-! ## Pool validator (`pool_validator_v3.py`) -/

/-- Redeemer of the pool validator. -/
inductive PoolRedeemer where
  | stake (amount : Int)
  | unstake (amount : Int)
  | claim
  | updatePool (new_yield_rate : Int)
  | closePool
  | fundTreasury (amount : Int)
  | withdrawTreasury (amount : Int)
  | pausePool (pause : Int)
deriving DecidableEq, Repr

/-- `datum_matches_except_total_staked` from `pool_validator_v3.py`. -/
def datum_matches_except_total_staked (new_datum datum : PoolDatum)
    (expected_total : Int) : Bool :=
  decide (new_datum.pool_nft_policy = datum.pool_nft_policy) &&
  decide (new_datum.pool_nft_name = datum.pool_nft_name) &&
  decide (new_datum.stake_token_policy = datum.stake_token_policy) &&
  decide (new_datum.stake_token_name = datum.stake_token_name) &&
  decide (new_datum.reward_token_policy = datum.reward_token_policy) &&
  decide (new_datum.reward_token_name = datum.reward_token_name) &&
  decide (new_datum.yield_rate = datum.yield_rate) &&
  decide (new_datum.min_stake = datum.min_stake) &&
  decide (new_datum.owner = datum.owner) &&
  decide (new_datum.total_staked = expected_total) &&
  decide (new_datum.staking_validator_hash = datum.staking_validator_hash) &&
  decide (new_datum.position_nft_policy_hash = datum.position_nft_policy_hash) &&
  decide (new_datum.platform_fee_pkh = datum.platform_fee_pkh) &&
  decide (new_datum.deposit_fee_bps = datum.deposit_fee_bps) &&
  decide (new_datum.burn_address_hash = datum.burn_address_hash) &&
  decide (new_datum.paused = datum.paused)

/-- `datum_unchanged` from `pool_validator_v3.py`. -/
def datum_unchanged (new_datum datum : PoolDatum) : Bool :=
  datum_matches_except_total_staked new_datum datum datum.total_staked

/-- `datum_matches_except_paused` from `pool_validator_v3.py`. -/
def datum_matches_except_paused (new_datum datum : PoolDatum)
    (expected_paused : Int) : Bool :=
  decide (new_datum.pool_nft_policy = datum.pool_nft_policy) &&
  decide (new_datum.pool_nft_name = datum.pool_nft_name) &&
  decide (new_datum.stake_token_policy = datum.stake_token_policy) &&
  decide (new_datum.stake_token_name = datum.stake_token_name) &&
  decide (new_datum.reward_token_policy = datum.reward_token_policy) &&
  decide (new_datum.reward_token_name = datum.reward_token_name) &&
  decide (new_datum.yield_rate = datum.yield_rate) &&
  decide (new_datum.min_stake = datum.min_stake) &&
  decide (new_datum.owner = datum.owner) &&
  decide (new_datum.total_staked = datum.total_staked) &&
  decide (new_datum.staking_validator_hash = datum.staking_validator_hash) &&
  decide (new_datum.position_nft_policy_hash = datum.position_nft_policy_hash) &&
  decide (new_datum.platform_fee_pkh = datum.platform_fee_pkh) &&
  decide (new_datum.deposit_fee_bps = datum.deposit_fee_bps) &&
  decide (new_datum.burn_address_hash = datum.burn_address_hash) &&
  decide (new_datum.paused = expected_paused)

/-- Stake branch of the pool validator. -/
def stakeCheck (tx : TxInfo) (own_addr : Address) (datum : PoolDatum) (amount : Int) : Bool :=
  decide (datum.paused = 0) &&
  decide (datum.min_stake ≤ amount) &&
  match find_continuing_output tx own_addr datum.pool_nft_policy datum.pool_nft_name with
  | none => false
  | some cont =>
    match cont.datum with
    | .someDatum (.pool new_datum) =>
      datum_matches_except_total_staked new_datum datum (datum.total_staked + amount) &&
      verify_platform_fee_paid tx datum (calculate_fee amount datum.deposit_fee_bps)
        datum.stake_token_policy datum.stake_token_name
    | _ => false

/-- Unstake branch of the pool validator. -/
def unstakeCheck (tx : TxInfo) (own_out : TxOut) (datum : PoolDatum) (amount : Int) : Bool :=
  staking_validator_spent tx datum.staking_validator_hash &&
  decide (0 < amount) &&
  decide (amount ≤ datum.total_staked) &&
  match find_continuing_output tx own_out.address datum.pool_nft_policy datum.pool_nft_name with
  | none => false
  | some cont =>
    match cont.datum with
    | .someDatum (.pool new_datum) =>
      (let old_stake := get_token_amount own_out.value datum.stake_token_policy
         datum.stake_token_name
       let new_stake := get_token_amount cont.value datum.stake_token_policy
         datum.stake_token_name
       decide (new_stake + amount ≤ old_stake)) &&
      datum_matches_except_total_staked new_datum datum (datum.total_staked - amount)
    | _ => false

/-- Claim branch of the pool validator. -/
def poolClaimCheck (tx : TxInfo) (own_out : TxOut) (datum : PoolDatum) : Bool :=
  staking_validator_spent tx datum.staking_validator_hash &&
  match find_continuing_output tx own_out.address datum.pool_nft_policy datum.pool_nft_name with
  | none => false
  | some cont =>
    match cont.datum with
    | .someDatum (.pool new_datum) =>
      (let old_rewards := get_token_amount own_out.value datum.reward_token_policy
         datum.reward_token_name
       let new_rewards := get_token_amount cont.value datum.reward_token_policy
         datum.reward_token_name
       decide (new_rewards < old_rewards)) &&
      datum_unchanged new_datum datum
    | _ => false

/-- UpdatePool branch of the pool validator. -/
def updatePoolCheck (tx : TxInfo) (own_addr : Address) (datum : PoolDatum)
    (new_yield_rate : Int) : Bool :=
  signed_by tx datum.owner &&
  decide (0 < new_yield_rate) &&
  decide (new_yield_rate ≤ 10000) &&
  match find_continuing_output tx own_addr datum.pool_nft_policy datum.pool_nft_name with
  | none => false
  | some cont =>
    match cont.datum with
    | .someDatum (.pool new_datum) =>
      decide (new_datum.pool_nft_policy = datum.pool_nft_policy) &&
      decide (new_datum.pool_nft_name = datum.pool_nft_name) &&
      decide (new_datum.stake_token_policy = datum.stake_token_policy) &&
      decide (new_datum.stake_token_name = datum.stake_token_name) &&
      decide (new_datum.reward_token_policy = datum.reward_token_policy) &&
      decide (new_datum.reward_token_name = datum.reward_token_name) &&
      decide (new_datum.yield_rate = new_yield_rate) &&
      decide (new_datum.min_stake = datum.min_stake) &&
      decide (new_datum.owner = datum.owner) &&
      decide (new_datum.total_staked = datum.total_staked) &&
      decide (new_datum.staking_validator_hash = datum.staking_validator_hash) &&
      decide (new_datum.position_nft_policy_hash = datum.position_nft_policy_hash) &&
      decide (new_datum.platform_fee_pkh = datum.platform_fee_pkh) &&
      decide (new_datum.deposit_fee_bps = datum.deposit_fee_bps) &&
      decide (new_datum.burn_address_hash = datum.burn_address_hash) &&
      decide (new_datum.paused = datum.paused)
    | _ => false

/-- ClosePool branch of the pool validator. -/
def closePoolCheck (tx : TxInfo) (datum : PoolDatum) : Bool :=
  signed_by tx datum.owner &&
  decide (datum.paused = 1) &&
  nft_burned tx datum.pool_nft_policy datum.pool_nft_name

/-- FundTreasury branch of the pool validator. -/
def fundTreasuryCheck (tx : TxInfo) (own_out : TxOut) (datum : PoolDatum)
    (amount : Int) : Bool :=
  signed_by tx datum.owner &&
  decide (0 < amount) &&
  match find_continuing_output tx own_out.address datum.pool_nft_policy datum.pool_nft_name with
  | none => false
  | some cont =>
    match cont.datum with
    | .someDatum (.pool new_datum) =>
      (let old_rewards := get_token_amount own_out.value datum.reward_token_policy
         datum.reward_token_name
       let new_rewards := get_token_amount cont.value datum.reward_token_policy
         datum.reward_token_name
       decide (old_rewards + amount ≤ new_rewards)) &&
      datum_unchanged new_datum datum &&
      verify_platform_fee_paid tx datum (calculate_fee amount datum.deposit_fee_bps)
        datum.reward_token_policy datum.reward_token_name
    | _ => false

/-- WithdrawTreasury branch of the pool validator. -/
def withdrawTreasuryCheck (tx : TxInfo) (own_out : TxOut) (datum : PoolDatum)
    (amount : Int) : Bool :=
  signed_by tx datum.owner &&
  decide (0 < amount) &&
  match find_continuing_output tx own_out.address datum.pool_nft_policy datum.pool_nft_name with
  | none => false
  | some cont =>
    match cont.datum with
    | .someDatum (.pool new_datum) =>
      (let old_rewards := get_token_amount own_out.value datum.reward_token_policy
         datum.reward_token_name
       let new_rewards := get_token_amount cont.value datum.reward_token_policy
         datum.reward_token_name
       decide (new_rewards + amount ≤ old_rewards)) &&
      datum_unchanged new_datum datum
    | _ => false

/-- PausePool branch of the pool validator. -/
def pausePoolCheck (tx : TxInfo) (own_addr : Address) (datum : PoolDatum)
    (pause : Int) : Bool :=
  signed_by tx datum.owner &&
  decide (pause = 0 ∨ pause = 1) &&
  match find_continuing_output tx own_addr datum.pool_nft_policy datum.pool_nft_name with
  | none => false
  | some cont =>
    match cont.datum with
    | .someDatum (.pool new_datum) => datum_matches_except_paused new_datum datum pause
    | _ => false

/-- `validator` of `pool_validator_v3.py`: spending purpose, own input with
inline `PoolDatum`, pool-NFT presence check, then redeemer dispatch. -/
def poolValidator (ctx : ScriptContext PoolRedeemer) : Bool :=
  match ctx.purpose with
  | .spending ref =>
    match find_own_input ctx.transaction ref with
    | none => false
    | some own_out =>
      match own_out.datum with
      | .someDatum (.pool datum) =>
        has_nft own_out.value datum.pool_nft_policy datum.pool_nft_name &&
        match ctx.redeemer with
        | .stake a => stakeCheck ctx.transaction own_out.address datum a
        | .unstake a => unstakeCheck ctx.transaction own_out datum a
        | .claim => poolClaimCheck ctx.transaction own_out datum
        | .updatePool r => updatePoolCheck ctx.transaction own_out.address datum r
        | .closePool => closePoolCheck ctx.transaction datum
        | .fundTreasury a => fundTreasuryCheck ctx.transaction own_out datum a
        | .withdrawTreasury a => withdrawTreasuryCheck ctx.transaction own_out datum a
        | .pausePool p => pausePoolCheck ctx.transaction own_out.address datum p
      | _ => false
  | _ => false

/-! ## Pool NFT minting policy (`pool_nft_policy_v3.py`)

The `sha2_256` ledger builtin is not part of this repository; the policy
is parametrised over it as an arbitrary function on byte strings. -/

/-- Mint redeemer of the pool NFT policy. -/
structure MintRed where
  output_index : Int
  pool_validator_hash : ByteStr
  platform_authority_nft_policy : ByteStr
  platform_authority_nft_name : ByteStr
deriving DecidableEq, Repr

inductive PoolNFTRedeemer where
  | mint (r : MintRed)
  | burn
deriving DecidableEq, Repr

/-- `has_token` from `pool_nft_policy_v3.py`: exact quantity. -/
def has_token (v : Value) (policy name : ByteStr) (qty : Int) : Bool :=
  match mapLookup v policy with
  | some tokens =>
    match mapLookup tokens name with
    | some q => decide (q = qty)
    | none => false
  | none => false

/-- Scan loop of `find_platform_authority`: first reference input carrying
the authority NFT with an inline datum; self-reference fields are asserted;
`none` covers the final `assert False`, a failed cast and a failed
self-reference assert. -/
def find_platform_authority_go (refs : List TxIn) (p n : ByteStr) :
    Option PlatformAuthorityDatum :=
  match refs with
  | [] => none
  | r :: rest =>
    if has_nft r.resolved.value p n then
      match r.resolved.datum with
      | .someDatum (.auth a) =>
        if a.platform_nft_policy = p ∧ a.platform_nft_name = n then some a else none
      | .someDatum _ => none
      | _ => find_platform_authority_go rest p n
    else find_platform_authority_go rest p n

/-- `output_to_validator` from `pool_nft_policy_v3.py`. -/
def output_to_validator (out : TxOut) (script_hash : ByteStr) : Bool :=
  match out.address.payment_credential with
  | .script h => decide (h = script_hash)
  | _ => false

/-- `valid_datum` from `pool_nft_policy_v3.py`: the target output's
`PoolDatum` self-references the minted token and passes the sanity checks. -/
def valid_datum (out : TxOut) (policy name : ByteStr) : Bool :=
  match out.datum with
  | .someDatum (.pool datum) =>
    decide (datum.pool_nft_policy = policy) &&
    decide (datum.pool_nft_name = name) &&
    decide (0 < datum.yield_rate) &&
    decide (datum.yield_rate ≤ 10000) &&
    decide (0 < datum.min_stake) &&
    decide (datum.owner.length = 28) &&
    decide (datum.total_staked = 0) &&
    decide (datum.staking_validator_hash.length = 28) &&
    decide (datum.position_nft_policy_hash.length = 28) &&
    decide (datum.platform_fee_pkh.length = 28) &&
    decide (datum.burn_address_hash.length = 28)
  | _ => false

/-- Mint branch of the pool NFT policy. -/
def mintCheck (sha : ByteStr → ByteStr) (tx : TxInfo) (policy_id : ByteStr)
    (minted : TokenMap) (r : MintRed) : Bool :=
  decide (r.pool_validator_hash.length = 28) &&
  decide (r.platform_authority_nft_policy.length = 28) &&
  decide (r.platform_authority_nft_name.length = 32) &&
  match find_platform_authority_go tx.reference_inputs r.platform_authority_nft_policy
      r.platform_authority_nft_name with
  | none => false
  | some authority =>
    signed_by tx authority.pool_creator_pkh &&
    match tx.inputs with
    | [] => false
    | first_input :: _ =>
      let token_name := sha first_input.out_ref.id
      decide (minted.length = 1) &&
      (mapLookup minted token_name).isSome &&
      decide (mapLookup minted token_name = some 1) &&
      decide (0 ≤ r.output_index) &&
      decide (r.output_index < (tx.outputs.length : Int)) &&
      match tx.outputs[r.output_index.toNat]? with
      | none => false
      | some target_out =>
        output_to_validator target_out r.pool_validator_hash &&
        has_token target_out.value policy_id token_name 1 &&
        valid_datum target_out policy_id token_name

/-- `validator` of `pool_nft_policy_v3.py`, parametrised by the `sha2_256`
ledger builtin. -/
def poolNftValidator (sha : ByteStr → ByteStr) (ctx : ScriptContext PoolNFTRedeemer) : Bool :=
  match ctx.purpose with
  | .minting policy_id =>
    match mapLookup ctx.transaction.mint policy_id with
    | none => false
    | some minted =>
      match ctx.redeemer with
      | .mint r => mintCheck sha ctx.transaction policy_id minted r
      | .burn => minted.all fun tok => decide (tok.2 < 0)
  | _ => false

/-! ## Concrete fixtures

Concrete byte strings, datums and transactions used to evaluate the
validators on explicit inputs (witnesses and counterexamples). -/

def pkhUser : ByteStr := List.replicate 28 1
def pkhOwner : ByteStr := List.replicate 28 2
def pkhFee : ByteStr := List.replicate 28 3
def hashStakingV : ByteStr := List.replicate 28 4
def hashPositionPolicy : ByteStr := List.replicate 28 5
def hashBurn : ByteStr := List.replicate 28 6
def hashPoolPolicy : ByteStr := List.replicate 28 7
def hashPoolV : ByteStr := List.replicate 28 8
def poolTokName : ByteStr := List.replicate 32 9
def stakePol : ByteStr := List.replicate 28 10
def stakeNam : ByteStr := [11]
def rewardPol : ByteStr := List.replicate 28 12
def rewardNam : ByteStr := [13]
def posTokName : ByteStr := List.replicate 32 14

/-- A live pool: 5% yield, min stake 100, 1% deposit fee, not paused. -/
def poolCfg : PoolDatum :=
  { pool_nft_policy := hashPoolPolicy, pool_nft_name := poolTokName
    stake_token_policy := stakePol, stake_token_name := stakeNam
    reward_token_policy := rewardPol, reward_token_name := rewardNam
    yield_rate := 500, min_stake := 100, owner := pkhOwner, total_staked := 1000
    staking_validator_hash := hashStakingV, position_nft_policy_hash := hashPositionPolicy
    platform_fee_pkh := pkhFee, deposit_fee_bps := 100, burn_address_hash := hashBurn
    paused := 0 }

def poolCfgNoFee : PoolDatum := { poolCfg with deposit_fee_bps := 0 }

def poolCfgPaused : PoolDatum := { poolCfg with paused := 1 }

def posAddr : Address := ⟨.script hashStakingV, none⟩
def poolAddr : Address := ⟨.script hashPoolV, none⟩
def feeAddr : Address := ⟨.pubKey pkhFee, none⟩
def burnScriptAddr : Address := ⟨.script hashBurn, none⟩

def poolNftValue : Value := [(hashPoolPolicy, [(poolTokName, 1)])]
def posNftValue : Value := [(hashPositionPolicy, [(posTokName, 1)])]

/-- Pool config UTxO consulted as a reference input. -/
def poolRefIn : TxIn :=
  ⟨⟨[99], 0⟩, ⟨poolAddr, poolNftValue, .someDatum (.pool poolCfg)⟩⟩

def trivialRange : TimeRange := ⟨⟨.negInf, true⟩, ⟨.posInf, true⟩⟩

/-- Register fixture: deposit 1000, `staked_at = 999` strictly below the
validity upper bound 1000, 10-unit fee output. -/
def posDatumReg : UserPositionDatum :=
  ⟨hashPoolPolicy, poolTokName, pkhUser, posTokName, 1000, 999, 999, 0⟩
def refReg : TxOutRef := ⟨[1], 0⟩
def posInReg : TxIn := ⟨refReg, ⟨posAddr, posNftValue, .someDatum (.user posDatumReg)⟩⟩
def feeOutReg : TxOut := ⟨feeAddr, [(stakePol, [(stakeNam, 10)])], .noDatum⟩
def txReg : TxInfo :=
  ⟨[posInReg], [poolRefIn], [feeOutReg], [], [pkhUser],
    ⟨⟨.finite 400, true⟩, ⟨.finite 1000, true⟩⟩⟩
def ctxReg : ScriptContext StakingRedeemer := ⟨txReg, .spending refReg, .register 1000⟩

/-- Claim fixture: 1000 staked for 730 days at 500 bps, reward 100. -/
def posDatumCl : UserPositionDatum :=
  ⟨hashPoolPolicy, poolTokName, pkhUser, posTokName, 1000, 0, 0, 0⟩
def nowCl : Int := 63072000000
def refCl : TxOutRef := ⟨[2], 0⟩
def posInCl : TxIn := ⟨refCl, ⟨posAddr, posNftValue, .someDatum (.user posDatumCl)⟩⟩
def newDatumCl : UserPositionDatum :=
  { posDatumCl with last_claim := nowCl, total_claimed := 100 }
def contOutCl : TxOut := ⟨posAddr, posNftValue, .someDatum (.user newDatumCl)⟩
def txCl : TxInfo :=
  ⟨[posInCl], [poolRefIn], [contOutCl], [], [pkhUser],
    ⟨⟨.finite (nowCl - 600000), true⟩, ⟨.finite nowCl, true⟩⟩⟩
def ctxCl : ScriptContext StakingRedeemer := ⟨txCl, .spending refCl, .claim⟩

/-- Early-claim fixture: last claim at 0, validity upper bound 1000, far
less than one day elapsed. -/
def refTen : TxOutRef := ⟨[3], 0⟩
def posInTen : TxIn := ⟨refTen, ⟨posAddr, posNftValue, .someDatum (.user posDatumCl)⟩⟩
def txTen : TxInfo :=
  ⟨[posInTen], [poolRefIn], [], [], [pkhUser],
    ⟨⟨.finite 400, true⟩, ⟨.finite 1000, true⟩⟩⟩
def ctxTen : ScriptContext StakingRedeemer := ⟨txTen, .spending refTen, .claim⟩

/-- Withdraw fixture: full withdrawal; the only output is the position NFT
at the burn script address — no stake tokens to the user, no replacement
position output. -/
def refWd : TxOutRef := ⟨[4], 0⟩
def posInWd : TxIn := ⟨refWd, ⟨posAddr, posNftValue, .someDatum (.user posDatumCl)⟩⟩
def burnOutWd : TxOut := ⟨burnScriptAddr, posNftValue, .noDatum⟩
def txWd : TxInfo := ⟨[posInWd], [poolRefIn], [burnOutWd], [], [pkhUser], trivialRange⟩
def ctxWd : ScriptContext StakingRedeemer := ⟨txWd, .spending refWd, .withdraw 0⟩

/-- Unstake fixture: pool UTxO co-spent with a staking-validator input. -/
def refUn : TxOutRef := ⟨[5], 0⟩
def poolOutUn : TxOut :=
  ⟨poolAddr, [(hashPoolPolicy, [(poolTokName, 1)]), (stakePol, [(stakeNam, 1000)])],
    .someDatum (.pool poolCfg)⟩
def stakingIn : TxIn := ⟨⟨[6], 0⟩, ⟨posAddr, posNftValue, .noDatum⟩⟩
def contPoolUn : TxOut :=
  ⟨poolAddr, [(hashPoolPolicy, [(poolTokName, 1)]), (stakePol, [(stakeNam, 700)])],
    .someDatum (.pool { poolCfg with total_staked := 700 })⟩
def txUn : TxInfo := ⟨[⟨refUn, poolOutUn⟩, stakingIn], [], [contPoolUn], [], [], trivialRange⟩
def ctxUn : ScriptContext PoolRedeemer := ⟨txUn, .spending refUn, .unstake 300⟩

/-- Stake fixture with 1% fee: amount 200, 2-unit fee output. -/
def refSt : TxOutRef := ⟨[7], 0⟩
def contPoolSt : TxOut :=
  ⟨poolAddr, [(hashPoolPolicy, [(poolTokName, 1)]), (stakePol, [(stakeNam, 1200)])],
    .someDatum (.pool { poolCfg with total_staked := 1200 })⟩
def feeOutSt : TxOut := ⟨feeAddr, [(stakePol, [(stakeNam, 2)])], .noDatum⟩
def txSt : TxInfo := ⟨[⟨refSt, poolOutUn⟩], [], [contPoolSt, feeOutSt], [], [], trivialRange⟩
def ctxSt : ScriptContext PoolRedeemer := ⟨txSt, .spending refSt, .stake 200⟩

/-- Stake fixture with zero fee rate: no fee output at all. -/
def refStZ : TxOutRef := ⟨[8], 0⟩
def poolOutStZ : TxOut := ⟨poolAddr, poolNftValue, .someDatum (.pool poolCfgNoFee)⟩
def contPoolStZ : TxOut :=
  ⟨poolAddr, poolNftValue, .someDatum (.pool { poolCfgNoFee with total_staked := 1200 })⟩
def txStZ : TxInfo := ⟨[⟨refStZ, poolOutStZ⟩], [], [contPoolStZ], [], [], trivialRange⟩
def ctxStZ : ScriptContext PoolRedeemer := ⟨txStZ, .spending refStZ, .stake 200⟩

/-- ClosePool fixture: paused pool, owner signs, pool NFT burned. -/
def refClo : TxOutRef := ⟨[15], 0⟩
def poolOutClo : TxOut := ⟨poolAddr, poolNftValue, .someDatum (.pool poolCfgPaused)⟩
def txClo : TxInfo :=
  ⟨[⟨refClo, poolOutClo⟩], [], [], [(hashPoolPolicy, [(poolTokName, -1)])], [pkhOwner],
    trivialRange⟩
def ctxClo : ScriptContext PoolRedeemer := ⟨txClo, .spending refClo, .closePool⟩

/-- A stand-in for the `sha2_256` builtin in concrete mint evaluations. -/
def shaFix : ByteStr → ByteStr := fun _ => List.replicate 32 21

def authPol : ByteStr := List.replicate 28 15
def authNam : ByteStr := List.replicate 32 16
def pkhCreator : ByteStr := List.replicate 28 17
def authDat : PlatformAuthorityDatum :=
  ⟨pkhCreator, List.replicate 28 18, authPol, authNam⟩
def authRefIn : TxIn :=
  ⟨⟨[16], 0⟩, ⟨⟨.script (List.replicate 28 19), none⟩, [(authPol, [(authNam, 1)])],
    .someDatum (.auth authDat)⟩⟩
def mintTokName : ByteStr := List.replicate 32 21

/-- Minted-pool datum whose `stake_token_policy` is empty (0 bytes) yet
passes every check of `valid_datum`. -/
def mintPoolDat : PoolDatum :=
  { pool_nft_policy := hashPoolPolicy, pool_nft_name := mintTokName
    stake_token_policy := [], stake_token_name := []
    reward_token_policy := rewardPol, reward_token_name := rewardNam
    yield_rate := 500, min_stake := 100, owner := pkhOwner, total_staked := 0
    staking_validator_hash := hashStakingV, position_nft_policy_hash := hashPositionPolicy
    platform_fee_pkh := pkhFee, deposit_fee_bps := 100, burn_address_hash := hashBurn
    paused := 0 }

def mintTargetOut : TxOut :=
  ⟨⟨.script hashPoolV, none⟩, [(hashPoolPolicy, [(mintTokName, 1)])],
    .someDatum (.pool mintPoolDat)⟩
def firstInMint : TxIn := ⟨⟨[17], 0⟩, ⟨⟨.pubKey pkhCreator, none⟩, [], .noDatum⟩⟩
def txMint : TxInfo :=
  ⟨[firstInMint], [authRefIn], [mintTargetOut], [(hashPoolPolicy, [(mintTokName, 1)])],
    [pkhCreator], trivialRange⟩
def mintRedFix : MintRed := ⟨0, hashPoolV, authPol, authNam⟩
def ctxMint : ScriptContext PoolNFTRedeemer := ⟨txMint, .minting hashPoolPolicy, .mint mintRedFix⟩

/-! ## Helper lemmas -/

theorem staking_validator_spent_iff (tx : TxInfo) (h : ByteStr) :
    staking_validator_spent tx h = true ↔
      ∃ i ∈ tx.inputs, i.resolved.address.payment_credential = .script h := by
  simp only [staking_validator_spent, List.any_eq_true]
  constructor
  · rintro ⟨i, hi, hc⟩
    refine ⟨i, hi, ?_⟩
    cases hcred : i.resolved.address.payment_credential with
    | pubKey hh => rw [hcred] at hc; simp at hc
    | script hh => rw [hcred] at hc; simp only [decide_eq_true_eq] at hc; rw [hc]
  · rintro ⟨i, hi, hc⟩
    exact ⟨i, hi, by rw [hc]; simp⟩

theorem nft_sent_to_burn_iff (tx : TxInfo) (pool : PoolDatum) (p n : ByteStr) :
    nft_sent_to_burn tx pool p n = true ↔
      ∃ o ∈ tx.outputs, o.address.payment_credential = .script pool.burn_address_hash ∧
        has_nft o.value p n = true := by
  simp only [nft_sent_to_burn, List.any_eq_true]
  constructor
  · rintro ⟨o, ho, hc⟩
    refine ⟨o, ho, ?_⟩
    cases hcred : o.address.payment_credential with
    | pubKey hh => rw [hcred] at hc; simp at hc
    | script hh =>
      rw [hcred] at hc
      simp only [Bool.and_eq_true, decide_eq_true_eq] at hc
      exact ⟨by rw [hc.1], hc.2⟩
  · rintro ⟨o, ho, hc, hn⟩
    exact ⟨o, ho, by rw [hc]; simp [hn]⟩

theorem datum_matches_except_total_staked_iff (nd d : PoolDatum) (e : Int) :
    datum_matches_except_total_staked nd d e = true ↔ nd = { d with total_staked := e } := by
  cases nd
  cases d
  simp only [datum_matches_except_total_staked, Bool.and_eq_true, decide_eq_true_eq,
    PoolDatum.mk.injEq]
  tauto

theorem get_current_time_eq_some (tx : TxInfo) (t : Int)
    (h : get_current_time tx = some t) :
    ∃ lo, tx.validity_range.lower_bound.limit = .finite lo ∧
      tx.validity_range.upper_bound.limit = .finite t ∧ t - lo ≤ 600000 := by
  unfold get_current_time at h
  split at h
  · rename_i lo hlo
    split at h
    · rename_i hi hhi
      split at h
      · rename_i hw
        obtain rfl : hi = t := by injection h
        exact ⟨lo, hlo, hhi, hw⟩
      · cases h
    · cases h
  · cases h

theorem user_datum_eq (nd d : UserPositionDatum) (t c : Int)
    (h1 : nd.last_claim = t) (h2 : nd.total_claimed = c)
    (h3 : nd.pool_nft_policy = d.pool_nft_policy) (h4 : nd.pool_nft_name = d.pool_nft_name)
    (h5 : nd.user_pkh = d.user_pkh) (h6 : nd.position_nft_name = d.position_nft_name)
    (h7 : nd.stake_amount = d.stake_amount) (h8 : nd.staked_at = d.staked_at) :
    nd = { d with last_claim := t, total_claimed := c } := by
  cases nd; cases d; simp_all

theorem registerCheck_time_some {tx : TxInfo} {datum : UserPositionDatum} {d : Int}
    (h : registerCheck tx datum d = true) : ∃ t, get_current_time tx = some t := by
  simp only [registerCheck, Bool.and_eq_true] at h
  obtain ⟨-, h⟩ := h
  cases hpool : find_pool_config_reference tx datum.pool_nft_policy datum.pool_nft_name with
  | none => rw [hpool] at h; simp at h
  | some pool =>
    rw [hpool] at h
    simp only [Bool.and_eq_true] at h
    obtain ⟨-, h⟩ := h
    cases htime : get_current_time tx with
    | none => rw [htime] at h; simp at h
    | some t => exact ⟨t, rfl⟩

theorem claimCheck_time_some {tx : TxInfo} {addr : Address} {datum : UserPositionDatum}
    (h : claimCheck tx addr datum = true) : ∃ t, get_current_time tx = some t := by
  simp only [claimCheck, Bool.and_eq_true] at h
  obtain ⟨-, h⟩ := h
  cases hpool : find_pool_config_reference tx datum.pool_nft_policy datum.pool_nft_name with
  | none => rw [hpool] at h; simp at h
  | some pool =>
    rw [hpool] at h
    cases htime : get_current_time tx with
    | none => rw [htime] at h; simp at h
    | some t => exact ⟨t, rfl⟩

theorem compoundCheck_time_some {tx : TxInfo} {addr : Address} {datum : UserPositionDatum}
    (h : compoundCheck tx addr datum = true) : ∃ t, get_current_time tx = some t := by
  simp only [compoundCheck, Bool.and_eq_true] at h
  obtain ⟨-, h⟩ := h
  cases hpool : find_pool_config_reference tx datum.pool_nft_policy datum.pool_nft_name with
  | none => rw [hpool] at h; simp at h
  | some pool =>
    rw [hpool] at h
    cases htime : get_current_time tx with
    | none => rw [htime] at h; simp at h
    | some t => exact ⟨t, rfl⟩

theorem nft_burned_iff (tx : TxInfo) (p n : ByteStr) :
    nft_burned tx p n = true ↔
      ∃ toks, mapLookup tx.mint p = some toks ∧ mapLookup toks n = some (-1) := by
  unfold nft_burned
  cases h1 : mapLookup tx.mint p with
  | none => simp
  | some toks =>
    dsimp only
    cases h2 : mapLookup toks n with
    | none =>
      simp only [Bool.false_eq_true, false_iff]
      rintro ⟨toks', ht, hv⟩
      obtain rfl : toks = toks' := by injection ht
      rw [h2] at hv
      cases hv
    | some q =>
      simp only [decide_eq_true_eq]
      constructor
      · intro hq
        exact ⟨toks, rfl, by rw [h2, hq]⟩
      · rintro ⟨toks', ht, hv⟩
        obtain rfl : toks = toks' := by injection ht
        rw [h2] at hv
        injection hv

theorem fdiv_le_fdiv_of_le {a b c : Int} (hc : 0 < c) (h : a ≤ b) :
    Int.fdiv a c ≤ Int.fdiv b c := by
  rw [Int.fdiv_eq_ediv a hc.le, Int.fdiv_eq_ediv b hc.le]
  exact Int.ediv_le_ediv hc h

theorem fdiv_day_nonpos {e : Int} (h : e < 86400000) : Int.fdiv e 86400000 ≤ 0 := by
  have h1 : Int.fdiv e 86400000 ≤ Int.fdiv 86399999 86400000 :=
    fdiv_le_fdiv_of_le (by norm_num) (by omega)
  have h2 : Int.fdiv 86399999 86400000 = 0 := by decide
  omega

/-! ## Claim theorems -/

/-- Claim C1: whenever the pool validator accepts an Unstake or Claim
redeemer, some spent input sits at a script address whose payment
credential is the `staking_validator_hash` stored in the pool's datum;
a transaction without such an input is rejected no matter what it is
signed with. -/
theorem pool_unstake_claim_require_staking_cospend
    (ctx : ScriptContext PoolRedeemer) (ref : TxOutRef) (own_out : TxOut) (datum : PoolDatum)
    (hp : ctx.purpose = .spending ref)
    (hi : find_own_input ctx.transaction ref = some own_out)
    (hd : own_out.datum = .someDatum (.pool datum))
    (hr : (∃ a, ctx.redeemer = .unstake a) ∨ ctx.redeemer = .claim)
    (hacc : poolValidator ctx = true) :
    ∃ i ∈ ctx.transaction.inputs,
      i.resolved.address.payment_credential = .script datum.staking_validator_hash := by
  rw [← staking_validator_spent_iff]
  simp only [poolValidator, hp, hi, hd] at hacc
  rcases hr with ⟨a, ha⟩ | ha
  · rw [ha] at hacc
    simp only [unstakeCheck, Bool.and_eq_true] at hacc
    exact hacc.2.1.1.1
  · rw [ha] at hacc
    simp only [poolClaimCheck, Bool.and_eq_true] at hacc
    exact hacc.2.1

/-- Witness for C1: the concrete Unstake transaction `ctxUn` is accepted
and indeed co-spends a staking-validator input. -/
theorem pool_unstake_claim_require_staking_cospend_witness :
    ∃ i ∈ ctxUn.transaction.inputs,
      i.resolved.address.payment_credential = .script poolCfg.staking_validator_hash :=
  pool_unstake_claim_require_staking_cospend ctxUn refUn poolOutUn poolCfg
    rfl (by decide) rfl (Or.inl ⟨300, rfl⟩) (by decide)

/-- Claim C2, counterexample: the Register branch only requires
`staked_at ≤ now`, not `staked_at = now`.  The concrete transaction
`ctxReg` is accepted with `staked_at = 999` while the validity-interval
upper bound ("now") is 1000. -/
theorem register_accepts_stale_staked_at :
    stakingValidator ctxReg = true ∧
    ctxReg.redeemer = .register 1000 ∧
    get_current_time ctxReg.transaction = some 1000 ∧
    posDatumReg.staked_at ≠ 1000 :=
  ⟨by decide, rfl, by decide, by decide⟩

/-- Claim C2, amended: an accepted Register requires the user's signature,
an unpaused resolvable pool, `deposit ≥ min_stake`, a record with
`stake_amount = deposit` (fee on top), `total_claimed = 0`,
`last_claim = staked_at`, `staked_at ≤ now` (at most, not equal to, the
validity-interval upper bound), and the platform fee
floor(deposit * deposit_fee_bps / 10000) paid in stake-token units to
`platform_fee_pkh`. -/
theorem register_postconditions
    (ctx : ScriptContext StakingRedeemer) (ref : TxOutRef) (own_out : TxOut)
    (datum : UserPositionDatum) (d : Int)
    (hp : ctx.purpose = .spending ref)
    (hfi : find_own_input ctx.transaction ref = some own_out)
    (hd : own_out.datum = .someDatum (.user datum))
    (hr : ctx.redeemer = .register d)
    (hacc : stakingValidator ctx = true) :
    signed_by ctx.transaction datum.user_pkh = true ∧
    ∃ pool t,
      find_pool_config_reference ctx.transaction datum.pool_nft_policy datum.pool_nft_name =
        some pool ∧
      get_current_time ctx.transaction = some t ∧
      pool.paused = 0 ∧
      pool.min_stake ≤ d ∧
      datum.stake_amount = d ∧
      datum.total_claimed = 0 ∧
      datum.last_claim = datum.staked_at ∧
      datum.staked_at ≤ t ∧
      verify_platform_fee_paid ctx.transaction pool (calculate_fee d pool.deposit_fee_bps)
        pool.stake_token_policy pool.stake_token_name = true := by
  simp only [stakingValidator, hp, hfi, hd, hr] at hacc
  simp only [registerCheck, Bool.and_eq_true] at hacc
  obtain ⟨hsig, hrest⟩ := hacc
  refine ⟨hsig, ?_⟩
  cases hpool : find_pool_config_reference ctx.transaction datum.pool_nft_policy
      datum.pool_nft_name with
  | none => rw [hpool] at hrest; simp at hrest
  | some pool =>
    rw [hpool] at hrest
    simp only [Bool.and_eq_true, decide_eq_true_eq] at hrest
    obtain ⟨⟨⟨hpaused, hmin⟩, hstake⟩, hrest⟩ := hrest
    cases htime : get_current_time ctx.transaction with
    | none => rw [htime] at hrest; simp at hrest
    | some t =>
      rw [htime] at hrest
      simp only [Bool.and_eq_true, decide_eq_true_eq] at hrest
      obtain ⟨⟨⟨hsa, hlc⟩, htc⟩, hfee⟩ := hrest
      exact ⟨pool, t, rfl, rfl, hpaused, hmin, hstake, htc, hlc, hsa, hfee⟩

/-- Witness for the amended C2 at the concrete Register transaction. -/
theorem register_postconditions_witness :
    signed_by ctxReg.transaction posDatumReg.user_pkh = true ∧
    ∃ pool t,
      find_pool_config_reference ctxReg.transaction posDatumReg.pool_nft_policy
        posDatumReg.pool_nft_name = some pool ∧
      get_current_time ctxReg.transaction = some t ∧
      pool.paused = 0 ∧
      pool.min_stake ≤ 1000 ∧
      posDatumReg.stake_amount = 1000 ∧
      posDatumReg.total_claimed = 0 ∧
      posDatumReg.last_claim = posDatumReg.staked_at ∧
      posDatumReg.staked_at ≤ t ∧
      verify_platform_fee_paid ctxReg.transaction pool
        (calculate_fee 1000 pool.deposit_fee_bps)
        pool.stake_token_policy pool.stake_token_name = true :=
  register_postconditions ctxReg refReg posInReg.resolved posDatumReg 1000
    rfl (by decide) rfl rfl (by decide)

/-- Claim C3: an accepted Register, Claim or Compound forces both validity
bounds to be finite, the window to be at most 600000 ms, and the current
time used by the validator to be the upper bound (so an interval of width
700000 ms is rejected outright). -/
theorem validity_window_bounds
    (ctx : ScriptContext StakingRedeemer) (ref : TxOutRef) (own_out : TxOut)
    (datum : UserPositionDatum)
    (hp : ctx.purpose = .spending ref)
    (hfi : find_own_input ctx.transaction ref = some own_out)
    (hd : own_out.datum = .someDatum (.user datum))
    (hr : (∃ a, ctx.redeemer = .register a) ∨ ctx.redeemer = .claim ∨
      ctx.redeemer = .compound)
    (hacc : stakingValidator ctx = true) :
    ∃ lo up, ctx.transaction.validity_range.lower_bound.limit = .finite lo ∧
      ctx.transaction.validity_range.upper_bound.limit = .finite up ∧
      up - lo ≤ 600000 ∧
      get_current_time ctx.transaction = some up := by
  have hsome : ∃ t, get_current_time ctx.transaction = some t := by
    rcases hr with ⟨a, ha⟩ | ha | ha
    · simp only [stakingValidator, hp, hfi, hd, ha] at hacc
      exact registerCheck_time_some hacc
    · simp only [stakingValidator, hp, hfi, hd, ha] at hacc
      exact claimCheck_time_some hacc
    · simp only [stakingValidator, hp, hfi, hd, ha] at hacc
      exact compoundCheck_time_some hacc
  obtain ⟨t, ht⟩ := hsome
  obtain ⟨lo, hlo, hhi, hw⟩ := get_current_time_eq_some ctx.transaction t ht
  exact ⟨lo, t, hlo, hhi, hw, ht⟩

/-- Witness for C3 at the concrete accepted Claim transaction. -/
theorem validity_window_bounds_witness :
    ∃ lo up, ctxCl.transaction.validity_range.lower_bound.limit = .finite lo ∧
      ctxCl.transaction.validity_range.upper_bound.limit = .finite up ∧
      up - lo ≤ 600000 ∧
      get_current_time ctxCl.transaction = some up :=
  validity_window_bounds ctxCl refCl posInCl.resolved posDatumCl
    rfl (by decide) rfl (Or.inr (Or.inl rfl)) (by decide)

/-- Claim C4: `calculate_rewards` equals
floor(stake * rate * floor((now - last_claim)/86400000) / (365*10000))
for all integer inputs, and an accepted Claim requires the reward to be
strictly positive and the continuing record to have `last_claim = now` and
`total_claimed` increased by exactly the reward with every other field
unchanged. -/
theorem reward_formula_and_claim_update :
    (∀ s r lc n, calculate_rewards s r lc n =
      Int.fdiv (s * r * Int.fdiv (n - lc) 86400000) (365 * 10000)) ∧
    (∀ (ctx : ScriptContext StakingRedeemer) (ref : TxOutRef) (own_out : TxOut)
      (datum : UserPositionDatum),
      ctx.purpose = .spending ref →
      find_own_input ctx.transaction ref = some own_out →
      own_out.datum = .someDatum (.user datum) →
      ctx.redeemer = .claim →
      stakingValidator ctx = true →
      ∃ pool t cont nd,
        find_pool_config_reference ctx.transaction datum.pool_nft_policy datum.pool_nft_name
          = some pool ∧
        get_current_time ctx.transaction = some t ∧
        find_continuing_output ctx.transaction own_out.address pool.position_nft_policy_hash
          datum.position_nft_name = some cont ∧
        cont.datum = .someDatum (.user nd) ∧
        0 < calculate_rewards datum.stake_amount pool.yield_rate datum.last_claim t ∧
        nd = { datum with
          last_claim := t
          total_claimed := datum.total_claimed +
            calculate_rewards datum.stake_amount pool.yield_rate datum.last_claim t }) := by
  constructor
  · intro s r lc n
    unfold calculate_rewards
    split
    · rename_i hs; subst hs; simp [Int.zero_fdiv]
    · rfl
  · intro ctx ref own_out datum hp hfi hd hr hacc
    simp only [stakingValidator, hp, hfi, hd, hr] at hacc
    simp only [claimCheck, Bool.and_eq_true] at hacc
    obtain ⟨hsig, hrest⟩ := hacc
    cases hpool : find_pool_config_reference ctx.transaction datum.pool_nft_policy
        datum.pool_nft_name with
    | none => rw [hpool] at hrest; simp at hrest
    | some pool =>
      rw [hpool] at hrest
      cases htime : get_current_time ctx.transaction with
      | none => rw [htime] at hrest; simp at hrest
      | some t =>
        rw [htime] at hrest
        simp only [Bool.and_eq_true, decide_eq_true_eq] at hrest
        obtain ⟨hpos, hrest⟩ := hrest
        cases hcont : find_continuing_output ctx.transaction own_out.address
            pool.position_nft_policy_hash datum.position_nft_name with
        | none => rw [hcont] at hrest; simp at hrest
        | some cont =>
          rw [hcont] at hrest
          dsimp only at hrest
          cases hcd : cont.datum with
          | noDatum => rw [hcd] at hrest; simp at hrest
          | datumHash h => rw [hcd] at hrest; simp at hrest
          | someDatum dv =>
            cases dv with
            | pool p => rw [hcd] at hrest; simp at hrest
            | auth a => rw [hcd] at hrest; simp at hrest
            | user nd =>
              rw [hcd] at hrest
              simp only [Bool.and_eq_true, decide_eq_true_eq] at hrest
              obtain ⟨⟨⟨⟨⟨⟨⟨hlc, htc⟩, hpp⟩, hpn⟩, hpk⟩, hposn⟩, hsa⟩, hst⟩ := hrest
              exact ⟨pool, t, cont, nd, rfl, rfl, hcont, hcd, hpos,
                user_datum_eq nd datum _ _ hlc htc hpp hpn hpk hposn hsa hst⟩

/-- Witness for C4 at the concrete accepted Claim transaction. -/
theorem reward_formula_and_claim_update_witness :
    ∃ pool t cont nd,
      find_pool_config_reference ctxCl.transaction posDatumCl.pool_nft_policy
        posDatumCl.pool_nft_name = some pool ∧
      get_current_time ctxCl.transaction = some t ∧
      find_continuing_output ctxCl.transaction posInCl.resolved.address
        pool.position_nft_policy_hash posDatumCl.position_nft_name = some cont ∧
      cont.datum = .someDatum (.user nd) ∧
      0 < calculate_rewards posDatumCl.stake_amount pool.yield_rate posDatumCl.last_claim t ∧
      nd = { posDatumCl with
        last_claim := t
        total_claimed := posDatumCl.total_claimed +
          calculate_rewards posDatumCl.stake_amount pool.yield_rate posDatumCl.last_claim t } :=
  reward_formula_and_claim_update.2 ctxCl refCl posInCl.resolved posDatumCl
    rfl (by decide) rfl rfl (by decide)

/-- Claim C5: an accepted Stake leaves every one of the 15 other
pool-datum fields unchanged in the continuing output, with `total_staked`
grown by exactly the staked amount; it requires the pool unpaused, the
amount at least `min_stake`, and the platform fee
floor(amt * deposit_fee_bps / 10000) paid in stake-token units to
`platform_fee_pkh`; and with `deposit_fee_bps = 0` the concrete Stake
transaction `ctxStZ`, whose only output is the pool continuation at the
pool script address (no fee output), succeeds. -/
theorem stake_frame_conditions :
    (∀ (ctx : ScriptContext PoolRedeemer) (ref : TxOutRef) (own_out : TxOut)
      (datum : PoolDatum) (amt : Int),
      ctx.purpose = .spending ref →
      find_own_input ctx.transaction ref = some own_out →
      own_out.datum = .someDatum (.pool datum) →
      ctx.redeemer = .stake amt →
      poolValidator ctx = true →
      datum.paused = 0 ∧ datum.min_stake ≤ amt ∧
      verify_platform_fee_paid ctx.transaction datum (calculate_fee amt datum.deposit_fee_bps)
        datum.stake_token_policy datum.stake_token_name = true ∧
      ∃ cont nd,
        find_continuing_output ctx.transaction own_out.address datum.pool_nft_policy
          datum.pool_nft_name = some cont ∧
        cont.datum = .someDatum (.pool nd) ∧
        nd = { datum with total_staked := datum.total_staked + amt }) ∧
    poolValidator ctxStZ = true ∧
    poolCfgNoFee.deposit_fee_bps = 0 ∧
    ctxStZ.transaction.outputs = [contPoolStZ] ∧
    contPoolStZ.address.payment_credential = .script hashPoolV := by
  refine ⟨?_, by decide, rfl, rfl, rfl⟩
  intro ctx ref own_out datum amt hp hfi hd hr hacc
  simp only [poolValidator, hp, hfi, hd, hr] at hacc
  simp only [stakeCheck, Bool.and_eq_true, decide_eq_true_eq] at hacc
  obtain ⟨-, ⟨hpaused, hmin⟩, hmatch⟩ := hacc
  cases hcont : find_continuing_output ctx.transaction own_out.address datum.pool_nft_policy
      datum.pool_nft_name with
  | none => rw [hcont] at hmatch; simp at hmatch
  | some cont =>
    rw [hcont] at hmatch
    dsimp only at hmatch
    cases hcd : cont.datum with
    | noDatum => rw [hcd] at hmatch; simp at hmatch
    | datumHash h => rw [hcd] at hmatch; simp at hmatch
    | someDatum dv =>
      cases dv with
      | user u => rw [hcd] at hmatch; simp at hmatch
      | auth a => rw [hcd] at hmatch; simp at hmatch
      | pool nd =>
        rw [hcd] at hmatch
        simp only [Bool.and_eq_true] at hmatch
        obtain ⟨hdm, hfee⟩ := hmatch
        exact ⟨hpaused, hmin, hfee, cont, nd, rfl, hcd,
          (datum_matches_except_total_staked_iff nd datum _).mp hdm⟩

/-- Witness for C5 at the concrete accepted Stake transaction with a
1% fee. -/
theorem stake_frame_conditions_witness :
    poolCfg.paused = 0 ∧ poolCfg.min_stake ≤ 200 ∧
    verify_platform_fee_paid ctxSt.transaction poolCfg
      (calculate_fee 200 poolCfg.deposit_fee_bps)
      poolCfg.stake_token_policy poolCfg.stake_token_name = true ∧
    ∃ cont nd,
      find_continuing_output ctxSt.transaction poolOutUn.address poolCfg.pool_nft_policy
        poolCfg.pool_nft_name = some cont ∧
      cont.datum = .someDatum (.pool nd) ∧
      nd = { poolCfg with total_staked := poolCfg.total_staked + 200 } :=
  stake_frame_conditions.1 ctxSt refSt poolOutUn poolCfg 200
    rfl (by decide) rfl rfl (by decide)

/-- Specification of a positive `valid_datum` verdict. -/
theorem valid_datum_spec (out : TxOut) (policy name : ByteStr)
    (h : valid_datum out policy name = true) :
    ∃ d, out.datum = .someDatum (.pool d) ∧
      d.pool_nft_policy = policy ∧ d.pool_nft_name = name ∧
      0 < d.yield_rate ∧ d.yield_rate ≤ 10000 ∧ 0 < d.min_stake ∧
      d.owner.length = 28 ∧ d.total_staked = 0 ∧
      d.staking_validator_hash.length = 28 ∧ d.position_nft_policy_hash.length = 28 ∧
      d.platform_fee_pkh.length = 28 ∧ d.burn_address_hash.length = 28 := by
  unfold valid_datum at h
  cases hcd : out.datum with
  | noDatum => rw [hcd] at h; simp at h
  | datumHash hh => rw [hcd] at h; simp at h
  | someDatum dv =>
    cases dv with
    | user u => rw [hcd] at h; simp at h
    | auth a => rw [hcd] at h; simp at h
    | pool d =>
      rw [hcd] at h
      simp only [Bool.and_eq_true, decide_eq_true_eq] at h
      obtain ⟨⟨⟨⟨⟨⟨⟨⟨⟨⟨h1, h2⟩, h3⟩, h4⟩, h5⟩, h6⟩, h7⟩, h8⟩, h9⟩, h10⟩, h11⟩ := h
      exact ⟨d, rfl, h1, h2, h3, h4, h5, h6, h7, h8, h9, h10, h11⟩

/-- Claim C6, counterexample: the mint branch never checks the lengths of
the stake-token and reward-token policy ids.  The concrete mint `ctxMint`
is accepted although the minted pool record's `stake_token_policy` is
empty (length 0, not 28). -/
theorem pool_mint_accepts_short_token_policy :
    poolNftValidator shaFix ctxMint = true ∧
    ctxMint.transaction.outputs = [mintTargetOut] ∧
    mintTargetOut.datum = .someDatum (.pool mintPoolDat) ∧
    mintPoolDat.stake_token_policy.length ≠ 28 :=
  ⟨by decide, rfl, rfl, by decide⟩

/-- Claim C6, amended: an accepted Pool Identity mint forces the target
output's record to self-reference the minted token, have yield_rate in
(0, 10000], min_stake > 0, total_staked = 0, and exactly 28 bytes in
owner, staking_validator_hash, position_nft_policy_hash, platform_fee_pkh
and burn_address_hash (the stake-token and reward-token policy ids are
not length-checked). -/
theorem pool_mint_datum_checks (sha : ByteStr → ByteStr)
    (ctx : ScriptContext PoolNFTRedeemer) (pid : ByteStr) (r : MintRed)
    (hp : ctx.purpose = .minting pid)
    (hr : ctx.redeemer = .mint r)
    (hacc : poolNftValidator sha ctx = true) :
    ∃ first rest target d,
      ctx.transaction.inputs = first :: rest ∧
      ctx.transaction.outputs[r.output_index.toNat]? = some target ∧
      output_to_validator target r.pool_validator_hash = true ∧
      has_token target.value pid (sha first.out_ref.id) 1 = true ∧
      target.datum = .someDatum (.pool d) ∧
      d.pool_nft_policy = pid ∧ d.pool_nft_name = sha first.out_ref.id ∧
      0 < d.yield_rate ∧ d.yield_rate ≤ 10000 ∧ 0 < d.min_stake ∧
      d.owner.length = 28 ∧ d.total_staked = 0 ∧
      d.staking_validator_hash.length = 28 ∧ d.position_nft_policy_hash.length = 28 ∧
      d.platform_fee_pkh.length = 28 ∧ d.burn_address_hash.length = 28 := by
  simp only [poolNftValidator, hp, hr] at hacc
  cases hm : mapLookup ctx.transaction.mint pid with
  | none => rw [hm] at hacc; simp at hacc
  | some minted =>
    rw [hm] at hacc
    dsimp only at hacc
    simp only [mintCheck, Bool.and_eq_true] at hacc
    obtain ⟨-, hacc⟩ := hacc
    cases hauth : find_platform_authority_go ctx.transaction.reference_inputs
        r.platform_authority_nft_policy r.platform_authority_nft_name with
    | none => rw [hauth] at hacc; simp at hacc
    | some authority =>
      rw [hauth] at hacc
      dsimp only at hacc
      simp only [Bool.and_eq_true] at hacc
      obtain ⟨-, hacc⟩ := hacc
      cases hins : ctx.transaction.inputs with
      | nil => rw [hins] at hacc; simp at hacc
      | cons first rest =>
        rw [hins] at hacc
        dsimp only at hacc
        simp only [Bool.and_eq_true] at hacc
        obtain ⟨-, hacc⟩ := hacc
        cases htgt : ctx.transaction.outputs[r.output_index.toNat]? with
        | none => rw [htgt] at hacc; simp at hacc
        | some target =>
          rw [htgt] at hacc
          dsimp only at hacc
          simp only [Bool.and_eq_true] at hacc
          obtain ⟨⟨hov, htok⟩, hvd⟩ := hacc
          obtain ⟨d, hd, h1, h2, h3, h4, h5, h6, h7, h8, h9, h10, h11⟩ :=
            valid_datum_spec target pid (sha first.out_ref.id) hvd
          exact ⟨first, rest, target, d, rfl, rfl, hov, htok, hd,
            h1, h2, h3, h4, h5, h6, h7, h8, h9, h10, h11⟩

/-- Witness for the amended C6 at the concrete accepted mint. -/
theorem pool_mint_datum_checks_witness :
    ∃ first rest target d,
      ctxMint.transaction.inputs = first :: rest ∧
      ctxMint.transaction.outputs[mintRedFix.output_index.toNat]? = some target ∧
      output_to_validator target mintRedFix.pool_validator_hash = true ∧
      has_token target.value hashPoolPolicy (shaFix first.out_ref.id) 1 = true ∧
      target.datum = .someDatum (.pool d) ∧
      d.pool_nft_policy = hashPoolPolicy ∧ d.pool_nft_name = shaFix first.out_ref.id ∧
      0 < d.yield_rate ∧ d.yield_rate ≤ 10000 ∧ 0 < d.min_stake ∧
      d.owner.length = 28 ∧ d.total_staked = 0 ∧
      d.staking_validator_hash.length = 28 ∧ d.position_nft_policy_hash.length = 28 ∧
      d.platform_fee_pkh.length = 28 ∧ d.burn_address_hash.length = 28 :=
  pool_mint_datum_checks shaFix ctxMint hashPoolPolicy mintRedFix rfl rfl (by decide)

/-- Claim C7: the Withdraw branch accepts exactly when the user signs, the
pool resolves by its identity token, the effective amount (full stake when
the redeemer amount is 0) is positive and at most the stake, and some
output at the pool's burn script address carries the position NFT; the
concrete accepted Withdraw `ctxWd` pays no stake tokens to the user and
has no replacement position output at the position address. -/
theorem withdraw_accepts_iff :
    (∀ (tx : TxInfo) (datum : UserPositionDatum) (amount : Int),
      withdrawCheck tx datum amount = true ↔
        (signed_by tx datum.user_pkh = true ∧
         ∃ pool, find_pool_config_reference tx datum.pool_nft_policy datum.pool_nft_name =
             some pool ∧
           0 < (if amount = 0 then datum.stake_amount else amount) ∧
           (if amount = 0 then datum.stake_amount else amount) ≤ datum.stake_amount ∧
           ∃ o ∈ tx.outputs,
             o.address.payment_credential = .script pool.burn_address_hash ∧
             has_nft o.value pool.position_nft_policy_hash datum.position_nft_name = true)) ∧
    stakingValidator ctxWd = true ∧
    ctxWd.redeemer = .withdraw 0 ∧
    output_to_staker ctxWd.transaction posDatumCl.user_pkh poolCfg.stake_token_policy
      poolCfg.stake_token_name 1 = false ∧
    find_continuing_output ctxWd.transaction posAddr poolCfg.position_nft_policy_hash
      posDatumCl.position_nft_name = none := by
  refine ⟨?_, by decide, rfl, by decide, by decide⟩
  intro tx datum amount
  constructor
  · intro h
    simp only [withdrawCheck, Bool.and_eq_true] at h
    obtain ⟨hsig, h⟩ := h
    refine ⟨hsig, ?_⟩
    cases hpool : find_pool_config_reference tx datum.pool_nft_policy datum.pool_nft_name with
    | none => rw [hpool] at h; simp at h
    | some pool =>
      rw [hpool] at h
      dsimp only at h
      simp only [Bool.and_eq_true, decide_eq_true_eq] at h
      obtain ⟨⟨h1, h2⟩, hb⟩ := h
      exact ⟨pool, rfl, h1, h2, (nft_sent_to_burn_iff tx pool _ _).mp hb⟩
  · rintro ⟨hsig, pool, hpool, h1, h2, hb⟩
    simp only [withdrawCheck, hpool, Bool.and_eq_true, decide_eq_true_eq]
    exact ⟨hsig, ⟨h1, h2⟩, (nft_sent_to_burn_iff tx pool _ _).mpr hb⟩

/-- Claim C8: an accepted ClosePool requires the owner's signature, a
paused pool (`paused = 1`, so a ClosePool on an unpaused pool is
rejected), and the pool identity token minted at exactly -1 under the
pool NFT policy and name in the same transaction. -/
theorem closepool_conditions (ctx : ScriptContext PoolRedeemer) (ref : TxOutRef)
    (own_out : TxOut) (datum : PoolDatum)
    (hp : ctx.purpose = .spending ref)
    (hfi : find_own_input ctx.transaction ref = some own_out)
    (hd : own_out.datum = .someDatum (.pool datum))
    (hr : ctx.redeemer = .closePool)
    (hacc : poolValidator ctx = true) :
    signed_by ctx.transaction datum.owner = true ∧ datum.paused = 1 ∧
    ∃ toks, mapLookup ctx.transaction.mint datum.pool_nft_policy = some toks ∧
      mapLookup toks datum.pool_nft_name = some (-1) := by
  simp only [poolValidator, hp, hfi, hd, hr] at hacc
  simp only [closePoolCheck, Bool.and_eq_true, decide_eq_true_eq] at hacc
  obtain ⟨-, ⟨hsig, hpaused⟩, hburn⟩ := hacc
  exact ⟨hsig, hpaused,
    (nft_burned_iff ctx.transaction datum.pool_nft_policy datum.pool_nft_name).mp hburn⟩

/-- Witness for C8 at the concrete accepted ClosePool transaction. -/
theorem closepool_conditions_witness :
    signed_by ctxClo.transaction poolCfgPaused.owner = true ∧ poolCfgPaused.paused = 1 ∧
    ∃ toks, mapLookup ctxClo.transaction.mint poolCfgPaused.pool_nft_policy = some toks ∧
      mapLookup toks poolCfgPaused.pool_nft_name = some (-1) :=
  closepool_conditions ctxClo refClo poolOutClo poolCfgPaused rfl (by decide) rfl rfl (by decide)

/-- Claim C9: `calculate_rewards` is 0 when no time has elapsed, and
non-decreasing in the current time for fixed nonnegative stake and rate. -/
theorem reward_zero_elapsed_and_monotone :
    (∀ s r t, calculate_rewards s r t t = 0) ∧
    (∀ s r lc n n', 0 ≤ s → 0 ≤ r → n ≤ n' →
      calculate_rewards s r lc n ≤ calculate_rewards s r lc n') := by
  constructor
  · intro s r t
    unfold calculate_rewards
    split
    · rfl
    · simp [Int.zero_fdiv]
  · intro s r lc n n' hs hr hnn
    by_cases hs0 : s = 0
    · simp [calculate_rewards, hs0]
    · unfold calculate_rewards
      rw [if_neg hs0, if_neg hs0]
      have hd1 : Int.fdiv (n - lc) 86400000 ≤ Int.fdiv (n' - lc) 86400000 :=
        fdiv_le_fdiv_of_le (by norm_num) (by omega)
      have hnum : s * r * Int.fdiv (n - lc) 86400000 ≤ s * r * Int.fdiv (n' - lc) 86400000 :=
        mul_le_mul_of_nonneg_left hd1 (mul_nonneg hs hr)
      exact fdiv_le_fdiv_of_le (by norm_num) hnum

/-- Witness for C9 at concrete inputs. -/
theorem reward_zero_elapsed_and_monotone_witness :
    calculate_rewards 1000 500 0 0 = 0 ∧
    calculate_rewards 1000 500 0 86400000 ≤ calculate_rewards 1000 500 0 172800000 :=
  ⟨reward_zero_elapsed_and_monotone.1 1000 500 0,
   reward_zero_elapsed_and_monotone.2 1000 500 0 86400000 172800000
     (by decide) (by decide) (by decide)⟩

/-- Claim C10: for nonnegative stake and rate, less than a full day since
the last claim yields a reward of at most 0; rewards depend on elapsed
time only through whole-day increments; and a Claim or Compound
evaluation in that situation is rejected. -/
theorem reward_requires_full_day :
    (∀ s r lc n, 0 ≤ s → 0 ≤ r → n - lc < 86400000 → calculate_rewards s r lc n ≤ 0) ∧
    (∀ s r lc d, calculate_rewards s r lc (lc + d) =
      calculate_rewards s r lc (lc + 86400000 * Int.fdiv d 86400000)) ∧
    (∀ (ctx : ScriptContext StakingRedeemer) (ref : TxOutRef) (own_out : TxOut)
      (datum : UserPositionDatum) (pool : PoolDatum) (t : Int),
      ctx.purpose = .spending ref →
      find_own_input ctx.transaction ref = some own_out →
      own_out.datum = .someDatum (.user datum) →
      (ctx.redeemer = .claim ∨ ctx.redeemer = .compound) →
      find_pool_config_reference ctx.transaction datum.pool_nft_policy datum.pool_nft_name =
        some pool →
      get_current_time ctx.transaction = some t →
      0 ≤ datum.stake_amount → 0 ≤ pool.yield_rate →
      t - datum.last_claim < 86400000 →
      stakingValidator ctx = false) := by
  have part1 : ∀ s r lc n, 0 ≤ s → 0 ≤ r → n - lc < 86400000 →
      calculate_rewards s r lc n ≤ 0 := by
    intro s r lc n hs hr hlt
    by_cases hs0 : s = 0
    · simp [calculate_rewards, hs0]
    · unfold calculate_rewards
      rw [if_neg hs0]
      have hd : Int.fdiv (n - lc) 86400000 ≤ 0 := fdiv_day_nonpos hlt
      have hnum : s * r * Int.fdiv (n - lc) 86400000 ≤ 0 := by
        have := mul_le_mul_of_nonneg_left hd (mul_nonneg hs hr)
        simpa using this
      have := fdiv_le_fdiv_of_le (show (0 : Int) < 365 * 10000 by norm_num) hnum
      simpa [Int.zero_fdiv] using this
  refine ⟨part1, ?_, ?_⟩
  · intro s r lc d
    unfold calculate_rewards
    have h1 : lc + d - lc = d := by ring
    have h2 : lc + 86400000 * Int.fdiv d 86400000 - lc = 86400000 * Int.fdiv d 86400000 := by
      ring
    rw [h1, h2, Int.mul_fdiv_cancel_left _ (by norm_num)]
  · intro ctx ref own_out datum pool t hp hfi hd hred hpool htime hs hr hlt
    cases hval : stakingValidator ctx with
    | false => rfl
    | true =>
      exfalso
      have hpos : 0 < calculate_rewards datum.stake_amount pool.yield_rate
          datum.last_claim t := by
        rcases hred with ha | ha
        · simp only [stakingValidator, hp, hfi, hd, ha] at hval
          simp only [claimCheck, Bool.and_eq_true] at hval
          obtain ⟨-, hrest⟩ := hval
          rw [hpool] at hrest
          dsimp only at hrest
          rw [htime] at hrest
          dsimp only at hrest
          simp only [Bool.and_eq_true, decide_eq_true_eq] at hrest
          exact hrest.1
        · simp only [stakingValidator, hp, hfi, hd, ha] at hval
          simp only [compoundCheck, Bool.and_eq_true] at hval
          obtain ⟨-, hrest⟩ := hval
          rw [hpool] at hrest
          dsimp only at hrest
          rw [htime] at hrest
          dsimp only at hrest
          simp only [Bool.and_eq_true, decide_eq_true_eq] at hrest
          exact hrest.1
      have hnp := part1 datum.stake_amount pool.yield_rate datum.last_claim t hs hr hlt
      omega

/-- Witness for C10 at concrete inputs and the concrete early Claim
transaction, which is rejected. -/
theorem reward_requires_full_day_witness :
    calculate_rewards 1000 500 0 1000 ≤ 0 ∧
    calculate_rewards 1000 500 0 (0 + 100000) =
      calculate_rewards 1000 500 0 (0 + 86400000 * Int.fdiv 100000 86400000) ∧
    stakingValidator ctxTen = false :=
  ⟨reward_requires_full_day.1 1000 500 0 1000 (by decide) (by decide) (by decide),
   reward_requires_full_day.2.1 1000 500 0 100000,
   reward_requires_full_day.2.2 ctxTen refTen posInTen.resolved posDatumCl poolCfg 1000
     rfl (by decide) rfl (Or.inl rfl) (by decide) (by decide) (by decide) (by decide)
     (by decide)⟩

end OrmrStake
